import Mathlib

section
attribute [local semireducible] Rat.mul Rat.add Rat.sub Rat.inv Rat.ofScientific

/-!
# Verification of the godoctor text-edit engine

Shallow embedding of the fuzzy-match, multi-strategy, validating text-edit
engine of the `godoctor` repository, together with proofs settling the
frozen claims about it.

Sources embedded:
* `internal/tools/godoc/godoc.go` — the `edit_code` prototype handler
  (`editCodeHandler`, `findMatches`, `lineIndexToByteIndex`) with the
  strategies `single_match` / `replace_all` / `overwrite_file`.
* `internal/tools/edit_code/edit_code.go` — the single-replacement
  (`old_string`/`new_string`) variant and the multi-edit variant of
  `editCodeHandler`.

Modelling conventions:
* Go strings are modelled as `List Char`; byte offsets are character
  offsets (they coincide on the ASCII inputs used in concrete theorems).
* Go `float64` values (scores, thresholds) are modelled as `ℚ`.
* External collaborators (`imports.Process`/goimports, `go/parser`,
  `gopls check`, the `sahilm/fuzzy` suggestion library) are not part of the
  repository; the handlers are parameterised over them, so theorems either
  quantify over their behaviour or instantiate them explicitly.
* The filesystem visible to one invocation is the single target file,
  modelled as `Option (List Char)` (`none` = file does not exist).
  `os.WriteFile`/`os.MkdirAll` are assumed to succeed; I/O *errors* are
  outside the embedding.
-/

namespace Godoctor

/-- Go `unicode.IsSpace` restricted to the ASCII whitespace that can occur
in the modelled inputs. -/
def isSpaceChar (c : Char) : Bool :=
  c = ' ' || c = '\t' || c = '\n' || c = '\r'

/-- Go `strings.TrimSpace`: drop leading and trailing whitespace. -/
def trimSpace (s : List Char) : List Char :=
  ((s.dropWhile isSpaceChar).reverse.dropWhile isSpaceChar).reverse

/-- Go `strings.Index(s, pat)`: position of the first occurrence of `pat`
in `s`, `none` when absent (Go returns `-1`). `strings.Index(s, "") = 0`. -/
def firstIdx (s pat : List Char) : Option Nat :=
  match s with
  | [] => if pat = [] then some 0 else none
  | _ :: t => if pat.isPrefixOf s then some 0 else (firstIdx t pat).map (· + 1)

/-- Go `strings.Contains(s, pat)`. -/
def containsSub (s pat : List Char) : Bool :=
  (firstIdx s pat).isSome

/-- Go `strings.Count(s, "\n")`. -/
def countNL (s : List Char) : Nat :=
  s.countP (fun c => c = '\n')

/-- Go `strings.Split(s, "\n")`: the segments of `s` between newline
characters. Always returns at least one segment. -/
def splitNL : List Char → List (List Char)
  | [] => [[]]
  | c :: t =>
    let r := splitNL t
    if c = '\n' then [] :: r
    else
      match r with
      | [] => [[c]]
      | h :: t2 => (c :: h) :: t2

/-- Go `strings.Replace(s, old, new, 1)`: replace the first occurrence of
`old` by `new`; when `old` is empty, Go inserts `new` at the start. -/
def replaceFirst (s old new : List Char) : List Char :=
  if old = [] then new ++ s
  else
    match firstIdx s old with
    | none => s
    | some i => s.take i ++ new ++ s.drop (i + old.length)

/-- `lineIndexToByteIndex` from `godoc.go`: offset of the start of line
`lineIdx` (0-based), obtained by summing `len(line) + 1` over the preceding
lines, clamped to `len(s)`. -/
def lineIndexToByteIndex (s : List Char) (lineIdx : Nat) : Nat :=
  let lines := splitNL s
  let idx := (((lines.take lineIdx).map (fun l => l.length + 1)).sum)
  min idx s.length

/-- The `Match` struct of `godoc.go`: a candidate span. Offsets index into
the document content; `startLine` is 1-based; `score ∈ [0,1]`. -/
structure Match where
  startIndex : Nat
  endIndex : Nat
  startLine : Nat
  score : ℚ
deriving DecidableEq, Repr

/-- The per-line comparison of the fuzzy window loop in `findMatches`:
a content line counts as matching a (pre-trimmed) context line when the
trimmed content line equals it, or contains it as a substring. -/
def lineMatches (raw clean : List Char) : Bool :=
  decide (trimSpace raw = clean) || containsSub (trimSpace raw) clean

/-- Number of matching lines in the window of `contentLines` starting at
line `i` compared against `cleanContext` (the trimmed context lines). -/
def countWindowMatches (contentLines cleanContext : List (List Char)) (i : Nat) : Nat :=
  (((contentLines.drop i).take cleanContext.length).zip cleanContext).countP
    (fun p => lineMatches p.1 p.2)

/-- `findMatches` from `godoc.go`. Exact-occurrence shortcut first: a
verbatim occurrence yields a single candidate at the first occurrence with
score 1. Otherwise a sliding line-window pass keeps every window whose
fraction of matching lines reaches `threshold`. (The Go guard
`len(contextLines) == 0` is dead: `strings.Split` never returns an empty
slice.) -/
def findMatches (content context : List Char) (threshold : ℚ) : List Match :=
  match firstIdx content context with
  | some idx =>
    [{ startIndex := idx
       endIndex := idx + context.length
       startLine := countNL (content.take idx) + 1
       score := 1 }]
  | none =>
    let contentLines := splitNL content
    let contextLines := splitNL context
    let cleanContext := contextLines.map trimSpace
    if contextLines.length ≤ contentLines.length then
      (List.range (contentLines.length - contextLines.length + 1)).filterMap
        (fun i =>
          let score : ℚ := (countWindowMatches contentLines cleanContext i : ℚ) /
            (contextLines.length : ℚ)
          if threshold ≤ score then
            some { startIndex := lineIndexToByteIndex content i
                   endIndex := lineIndexToByteIndex content (i + contextLines.length)
                   startLine := i + 1
                   score := score }
          else none)
    else []

/-- `EditCodeParams` of the `godoc.go` prototype handler (the file path is
implicit: the modelled filesystem is the single target file). A zero
`threshold` stands for an omitted parameter, exactly as a zero `float64`
does for the Go JSON decoding. -/
structure EditArgs where
  searchContext : List Char
  newContent : List Char
  strategy : String
  threshold : ℚ
deriving DecidableEq, Repr

/-- Outcome of the `godoc.go` prototype handler: one constructor per
`return` site, carrying the data interpolated into its message. -/
inductive GodocOutcome where
  /-- `failed to read file` (file missing and strategy is not overwrite). -/
  | readError
  /-- `search_context is required for replace strategies`. -/
  | ctxRequired
  /-- `No match found for search_context.` The message reports only the
  content size, the search-context size and the threshold (the best-match
  feedback `bestMatchMsg` is the empty string — a `TODO` in the source). -/
  | noMatch (contentSize ctxSize : Nat) (threshold : ℚ)
  /-- `Ambiguous match: found %d occurrences … Matches at lines: …`. -/
  | ambiguous (count : Nat) (lineNums : List Nat)
  /-- `Syntax Error (Pre-commit)`: goimports failed and so did the parser. -/
  | syntaxErrorPre
  /-- `goimports failed`: goimports failed but the content parses. -/
  | goimportsFailed
  /-- `Syntax Error (Post-format)`: the formatted content fails to parse. -/
  | syntaxErrorPost
  /-- `Success: File updated. (Strategy: %s)`. -/
  | success (strategy : String)
deriving DecidableEq, Repr

/-- Whether a `GodocOutcome` is the success result. -/
def GodocOutcome.isSuccess : GodocOutcome → Bool
  | .success _ => true
  | _ => false

/-- `editCodeHandler` of the `godoc.go` prototype. Parameters:
`fmtF` models `imports.Process` (`none` = error), `parseOK` models
`go/parser.ParseFile` succeeding, `fs` is the target file's content
(`none` = file does not exist). Returns the tool outcome and the file
content after the call. Mirrors the Go control flow: defaulting, read,
strategy dispatch, match resolution, splice, goimports, parse checks,
write. (The temp-file "soft check" block has no observable effect and the
`MkdirAll`/`WriteFile` error paths are I/O failures outside the model.) -/
def editCodeGodoc (fmtF : List Char → Option (List Char))
    (parseOK : List Char → Bool) (fs : Option (List Char)) (args : EditArgs) :
    GodocOutcome × Option (List Char) :=
  let strategy := if args.strategy = "" then "single_match" else args.strategy
  let threshold := if args.threshold = 0 then (9 : ℚ)/10 else args.threshold
  let content? : Option (List Char) :=
    match fs with
    | some c => some c
    | none => if strategy = "overwrite_file" then some [] else none
  match content? with
  | none => (.readError, fs)
  | some originalContent =>
    let newContent? : GodocOutcome ⊕ List Char :=
      if strategy = "overwrite_file" then .inr args.newContent
      else if args.searchContext = [] then .inl .ctxRequired
      else
        match findMatches originalContent args.searchContext threshold with
        | [] => .inl (.noMatch originalContent.length args.searchContext.length threshold)
        | m :: rest =>
          if strategy = "single_match" ∧ rest ≠ [] then
            .inl (.ambiguous (rest.length + 1) ((m :: rest).map Match.startLine))
          else
            .inr (originalContent.take m.startIndex ++ args.newContent ++
              originalContent.drop m.endIndex)
    match newContent? with
    | .inl e => (e, fs)
    | .inr newContentStr =>
      match fmtF newContentStr with
      | none =>
        if parseOK newContentStr then (.goimportsFailed, fs)
        else (.syntaxErrorPre, fs)
      | some formattedBytes =>
        if parseOK formattedBytes then (.success strategy, some formattedBytes)
        else (.syntaxErrorPost, fs)

/-- Outcome of the single-replacement `edit_code.go` handler. -/
inductive SingleOutcome where
  /-- `file does not exist`. -/
  | notExists
  /-- `File edited successfully.` -/
  | editedOK
  /-- `Edit code replacement resulted in invalid Go code. The file has been
  reverted. …` (`gopls check` produced output). -/
  | checkFailed (diag : String)
  /-- `formatting failed` (`imports.Process` errored, after a clean check). -/
  | formatFailed
deriving DecidableEq, Repr

/-- `editCodeHandler` of `edit_code.go`, single-replacement variant.
`check` models `gopls check` run on the just-written file (its output
string; `""` = clean), `fmtF` models `imports.Process`, `isGoFile` models
`filepath.Ext(path) == ".go"`. Mirrors the Go control flow: existence
check, read, `strings.Replace(…, 1)`, write, extension gate, check with
revert-on-diagnostics, format, write. On a formatter error the handler
returns without reverting, so the newly written content stays on disk. -/
def editCodeSingle (check : List Char → String)
    (fmtF : List Char → Option (List Char)) (isGoFile : Bool)
    (fs : Option (List Char)) (oldString newString : List Char) :
    SingleOutcome × Option (List Char) :=
  match fs with
  | none => (.notExists, none)
  | some originalContent =>
    let newContent := replaceFirst originalContent oldString newString
    if !isGoFile then (.editedOK, some newContent)
    else
      let diag := check newContent
      if diag ≠ "" then (.checkFailed diag, some originalContent)
      else
        match fmtF newContent with
        | none => (.formatFailed, some newContent)
        | some formattedSrc => (.editedOK, some formattedSrc)

/-- The score the fuzzy window pass actually assigns to the window of
`content` lines starting at line `i` (0-based): the fraction of window
lines whose trimmed text equals, or contains, the corresponding trimmed
line of `context`. -/
def windowScore (content context : List Char) (i : Nat) : ℚ :=
  (countWindowMatches (splitNL content) ((splitNL context).map trimSpace) i : ℚ) /
    ((splitNL context).length : ℚ)

/-- The candidate that `findMatches` builds for the window starting at
line `i` (0-based). -/
def windowCandidate (content context : List Char) (i : Nat) : Match :=
  { startIndex := lineIndexToByteIndex content i
    endIndex := lineIndexToByteIndex content (i + (splitNL context).length)
    startLine := i + 1
    score := windowScore content context i }

/-- Per-line similarity following the spec's words (§4.1):
`1 - levenshtein(trim(a), trim(b)) / max(len(trim(a)), len(trim(b)), 1)`.
Stated for comparison with the per-line comparison the code performs
(`lineMatches`). -/
def specLineSimilarity (a b : List Char) : ℚ :=
  1 - ((levenshtein Levenshtein.defaultCost (trimSpace a) (trimSpace b) : ℕ) : ℚ) /
    (max (trimSpace a).length (max (trimSpace b).length 1) : ℚ)

/-- Window score following the spec's words (§4.1): the average of the
per-line similarities across the window of `contentLines` starting at
line `i`. Stated for comparison with `windowScore`. -/
def specWindowScore (contentLines contextLines : List (List Char)) (i : Nat) : ℚ :=
  ((((contentLines.drop i).take contextLines.length).zip contextLines).map
      (fun p => specLineSimilarity p.1 p.2)).sum / (contextLines.length : ℚ)

/-- The order-independent naive replace-all reference of the spec (§8):
given pairwise disjoint spans `(start, stop)` listed in ascending order,
replace each span of `content` by `replacement`. Stated for comparison
with what the handler produces. -/
def naiveReplaceSpans (content : List Char) (spans : List (Nat × Nat))
    (replacement : List Char) : List Char :=
  let step := fun (acc : List Char × Nat) (sp : Nat × Nat) =>
    (acc.1 ++ ((content.drop acc.2).take (sp.1 - acc.2)) ++ replacement, sp.2)
  let r := spans.foldl step ([], 0)
  r.1 ++ content.drop r.2

/-! Concrete collaborator environments used to evaluate the handlers in
closed theorems. The handlers are parameterised over the external
formatter / parser / checker, so a closed statement picks an instance. -/

/-- Formatter environment: succeeds returning its input unchanged
(content already canonical). -/
def fmtId (s : List Char) : Option (List Char) := some s

/-- Formatter environment: always errors. -/
def fmtFail (_ : List Char) : Option (List Char) := none

/-- Formatter environment modelling goimports' newline canonicalization:
appends the final newline when missing, otherwise leaves input unchanged. -/
def fmtNewline (s : List Char) : Option (List Char) :=
  some (if s.getLast? = some '\n' then s else s ++ ['\n'])

/-- Parser environment: every content parses. -/
def parseYes (_ : List Char) : Bool := true

/-- Parser environment: no content parses. -/
def parseNo (_ : List Char) : Bool := false

/-- Checker environment: `gopls check` output is always empty (clean). -/
def checkOK (_ : List Char) : String := ""

/-- Checker environment: `gopls check` always reports a diagnostic. -/
def checkBad (_ : List Char) : String := "main.go:1:1: oops"

/-- Outcome of the multi-edit `edit_code.go` handler. -/
inductive MultiOutcome where
  /-- `file does not exist`. -/
  | notExists
  /-- `old_string not found in file. No changes were made.` (possibly with
  fuzzy suggestions appended; the suggestion text, produced by the external
  `sahilm/fuzzy` library, is not modelled). -/
  | notFound
  /-- `File edited successfully.` -/
  | editedOK
  /-- check failed; the file has been reverted. -/
  | checkFailed (diag : String)
  /-- `formatting failed`. -/
  | formatFailed
deriving DecidableEq, Repr

/-- `editCodeHandler` of `edit_code.go`, multi-edit variant. Applies
`strings.Replace(…, 1)` for each edit in order; when the result is
byte-identical to the original it reports `old_string not found` and
performs no write; otherwise the same write/check/format pipeline as the
single-replacement variant runs. -/
def editCodeMulti (check : List Char → String)
    (fmtF : List Char → Option (List Char)) (isGoFile : Bool)
    (fs : Option (List Char)) (edits : List (List Char × List Char)) :
    MultiOutcome × Option (List Char) :=
  match fs with
  | none => (.notExists, none)
  | some originalContent =>
    let newContent := edits.foldl (fun acc e => replaceFirst acc e.1 e.2) originalContent
    if newContent = originalContent then (.notFound, some originalContent)
    else if !isGoFile then (.editedOK, some newContent)
    else
      let diag := check newContent
      if diag ≠ "" then (.checkFailed diag, some originalContent)
      else
        match fmtF newContent with
        | none => (.formatFailed, some newContent)
        | some formattedSrc => (.editedOK, some formattedSrc)

/-! ## Helper lemmas -/

/-- `strings.Index` with an empty pattern is 0 (Go convention). -/
theorem firstIdx_nil_pat (s : List Char) : firstIdx s [] = some 0 := by
  cases s with
  | nil => simp [firstIdx]
  | cons a t => simp [firstIdx, List.isPrefixOf]

/-- `firstIdx` really finds the first occurrence: the pattern is a list
prefix of the suffix starting at the returned index, and of no earlier
suffix. -/
theorem firstIdx_some_spec (s pat : List Char) (i : Nat)
    (h : firstIdx s pat = some i) :
    pat.isPrefixOf (s.drop i) = true ∧
      ∀ j < i, pat.isPrefixOf (s.drop j) = false := by
  induction s generalizing i with
  | nil =>
    unfold firstIdx at h
    by_cases hp : pat = []
    · subst hp
      simp at h
      subst h
      exact ⟨rfl, by omega⟩
    · simp [hp] at h
  | cons a t ih =>
    unfold firstIdx at h
    by_cases hp : pat.isPrefixOf (a :: t) = true
    · simp [hp] at h
      subst h
      exact ⟨hp, by omega⟩
    · rw [Bool.not_eq_true] at hp
      simp [hp] at h
      obtain ⟨i', hi', rfl⟩ := h
      obtain ⟨h1, h2⟩ := ih i' hi'
      refine ⟨h1, ?_⟩
      intro j hj
      cases j with
      | zero => simpa using hp
      | succ j' => exact h2 j' (by omega)

/-- When `old` does not occur in `s`, `strings.Replace(s, old, new, 1)`
returns `s` unchanged. -/
theorem replaceFirst_of_not_found (s old new : List Char)
    (h : containsSub s old = false) : replaceFirst s old new = s := by
  have hne : old ≠ [] := by
    intro hnil
    subst hnil
    rw [containsSub, firstIdx_nil_pat] at h
    simp at h
  have hidx : firstIdx s old = none := by
    rw [containsSub] at h
    exact Option.not_isSome_iff_eq_none.mp (by simp [h])
  rw [replaceFirst, if_neg hne, hidx]

/-- The exact fast path of `findMatches`: a verbatim occurrence yields the
single candidate at the first occurrence with score 1, for any threshold. -/
theorem findMatches_exact (content ctx : List Char) (idx : Nat) (th : ℚ)
    (h : firstIdx content ctx = some idx) :
    findMatches content ctx th =
      [{ startIndex := idx
         endIndex := idx + ctx.length
         startLine := countNL (content.take idx) + 1
         score := 1 }] := by
  rw [findMatches, h]

/-- Case analysis on the `godoc.go` prototype handler run on an existing
file: either the file is left unchanged, or the outcome is a success. -/
theorem godoc_result_cases (fmtF : List Char → Option (List Char))
    (parseOK : List Char → Bool) (c : List Char) (args : EditArgs) :
    (editCodeGodoc fmtF parseOK (some c) args).2 = some c ∨
      (editCodeGodoc fmtF parseOK (some c) args).1.isSuccess = true := by
  unfold editCodeGodoc
  dsimp only
  split
  · exact Or.inl rfl
  · split
    · split
      · exact Or.inl rfl
      · exact Or.inl rfl
    · split
      · exact Or.inr rfl
      · exact Or.inl rfl

/-! ## Claim C1 -/

/-- C1 (amended): on a validation failure for an existing file, the
validate-before-write variant (`godoc.go` prototype) performs no write —
indeed every non-success outcome leaves the file unchanged; the
write-then-revert variant (`edit_code.go`, single replacement) restores
the original bytes when the syntax check reports diagnostics, but on a
formatter error after a clean check it returns a failure with the newly
written candidate content left in the file. -/
theorem validation_failure_preserves_file :
    (∀ (fmtF : List Char → Option (List Char)) (parseOK : List Char → Bool)
        (c : List Char) (args : EditArgs),
        (editCodeGodoc fmtF parseOK (some c) args).1.isSuccess = false →
        (editCodeGodoc fmtF parseOK (some c) args).2 = some c) ∧
    (∀ (check : List Char → String) (fmtF : List Char → Option (List Char))
        (c oldS newS : List Char),
        check (replaceFirst c oldS newS) ≠ "" →
        editCodeSingle check fmtF true (some c) oldS newS =
          (.checkFailed (check (replaceFirst c oldS newS)), some c)) ∧
    (∀ (check : List Char → String) (fmtF : List Char → Option (List Char))
        (c oldS newS : List Char),
        check (replaceFirst c oldS newS) = "" →
        fmtF (replaceFirst c oldS newS) = none →
        editCodeSingle check fmtF true (some c) oldS newS =
          (.formatFailed, some (replaceFirst c oldS newS))) := by
  refine ⟨?_, ?_, ?_⟩
  · intro fmtF parseOK c args h
    rcases godoc_result_cases fmtF parseOK c args with h1 | h1
    · exact h1
    · rw [h1] at h
      cases h
  · intro check fmtF c oldS newS h
    simp [editCodeSingle, h]
  · intro check fmtF c oldS newS h1 h2
    simp [editCodeSingle, h1, h2]

/-- C1 counterexample: in the `edit_code.go` single-replacement variant,
with a clean `gopls check` but a failing formatter, the call fails with
`formatting failed` yet the file keeps the newly written content `"b"`,
not its pre-call bytes `"a"` — a net write despite a validation failure. -/
theorem format_failure_leaves_new_content :
    editCodeSingle checkOK fmtFail true (some "a".toList) "a".toList "b".toList =
      (.formatFailed, some "b".toList) ∧
    some "b".toList ≠ some "a".toList := by
  exact ⟨by decide, by decide⟩

/-- C1 witness: the three parts of `validation_failure_preserves_file`
applied at concrete inputs. -/
theorem validation_failure_preserves_file_witness :
    (editCodeGodoc fmtFail parseYes (some "x".toList)
        ⟨[], "y".toList, "overwrite_file", 0⟩).2 = some "x".toList ∧
    editCodeSingle checkBad fmtId true (some "x".toList) "x".toList "y".toList =
      (.checkFailed (checkBad (replaceFirst "x".toList "x".toList "y".toList)),
        some "x".toList) ∧
    editCodeSingle checkOK fmtFail true (some "x".toList) "x".toList "y".toList =
      (.formatFailed, some (replaceFirst "x".toList "x".toList "y".toList)) :=
  ⟨validation_failure_preserves_file.1 fmtFail parseYes "x".toList
      ⟨[], "y".toList, "overwrite_file", 0⟩ (by decide),
   validation_failure_preserves_file.2.1 checkBad fmtId "x".toList "x".toList
      "y".toList (by decide),
   validation_failure_preserves_file.2.2 checkOK fmtFail "x".toList "x".toList
      "y".toList (by decide) (by decide)⟩

/-! ## Claim C2 -/

/-- C2 (amended): when the search context occurs verbatim in the document
(as it does when the document holds two identical 3-line blocks equal to
the context), the exact fast path yields a single candidate at the first
occurrence, so no AmbiguousMatch error is raised: with `single_match` the
call succeeds replacing the first occurrence, and with `replace_all` it
likewise replaces only the first occurrence. -/
theorem verbatim_context_no_ambiguous_error
    (fmtF : List Char → Option (List Char)) (parseOK : List Char → Bool)
    (doc ctx newC f : List Char) (idx : Nat) (th : ℚ) (strat : String)
    (hidx : firstIdx doc ctx = some idx) (hctx : ctx ≠ [])
    (hstrat : strat = "single_match" ∨ strat = "replace_all")
    (hfmt : fmtF (doc.take idx ++ newC ++ doc.drop (idx + ctx.length)) = some f)
    (hparse : parseOK f = true) :
    editCodeGodoc fmtF parseOK (some doc) ⟨ctx, newC, strat, th⟩ =
      (.success strat, some f) := by
  have hfm := findMatches_exact doc ctx idx (if th = 0 then (9 : ℚ)/10 else th) hidx
  rw [List.append_assoc] at hfmt
  rcases hstrat with rfl | rfl <;>
  · simp [editCodeGodoc, hctx, hfm]
    rw [hfmt]
    simp [hparse]

/-- C2 counterexample: the document `"a\nb\nc\nx\na\nb\nc"` holds two
identical 3-line blocks (lines 1–3 and 5–7) equal to the search context
`"a\nb\nc"`. With `single_match` the call does not fail with an
AmbiguousMatch error listing the two start lines — it succeeds, replacing
the first block; and with `replace_all` the second occurrence is not
replaced (the result still contains the block). -/
theorem identical_blocks_counterexample :
    editCodeGodoc fmtId parseYes (some "a\nb\nc\nx\na\nb\nc".toList)
      ⟨"a\nb\nc".toList, "Z".toList, "single_match", 0⟩ =
      (.success "single_match", some "Z\nx\na\nb\nc".toList) ∧
    editCodeGodoc fmtId parseYes (some "a\nb\nc\nx\na\nb\nc".toList)
      ⟨"a\nb\nc".toList, "Z".toList, "replace_all", 0⟩ =
      (.success "replace_all", some "Z\nx\na\nb\nc".toList) ∧
    containsSub "Z\nx\na\nb\nc".toList "a\nb\nc".toList = true := by
  exact ⟨by decide, by decide, by decide⟩

/-- C2 witness: `verbatim_context_no_ambiguous_error` applied to the
two-identical-blocks document under `replace_all`. -/
theorem verbatim_context_no_ambiguous_error_witness :
    editCodeGodoc fmtId parseYes (some "a\nb\nc\nx\na\nb\nc".toList)
      ⟨"a\nb\nc".toList, "W".toList, "replace_all", 0⟩ =
      (.success "replace_all", some "W\nx\na\nb\nc".toList) :=
  verbatim_context_no_ambiguous_error fmtId parseYes
    "a\nb\nc\nx\na\nb\nc".toList "a\nb\nc".toList "W".toList
    "W\nx\na\nb\nc".toList 0 0 "replace_all" (by decide) (by decide)
    (Or.inr rfl) (by decide) (by decide)

/-! ## Claim C3 -/

/-- C3 (amended): if the pattern occurs verbatim in the content the
matcher returns exactly one candidate — at the first occurrence, with
score exactly 1 — for every threshold (the result does not depend on the
threshold, so the fuzzy line-window scoring is never consulted). It does
not return one candidate per occurrence under any strategy: `findMatches`
takes no strategy input. -/
theorem verbatim_occurrence_single_candidate (content ctx : List Char)
    (idx : Nat) (t1 t2 : ℚ) (h : firstIdx content ctx = some idx) :
    findMatches content ctx t1 =
      [{ startIndex := idx
         endIndex := idx + ctx.length
         startLine := countNL (content.take idx) + 1
         score := 1 }] ∧
    findMatches content ctx t1 = findMatches content ctx t2 ∧
    ctx.isPrefixOf (content.drop idx) = true ∧
    (∀ j < idx, ctx.isPrefixOf (content.drop j) = false) := by
  obtain ⟨h1, h2⟩ := firstIdx_some_spec content ctx idx h
  exact ⟨findMatches_exact content ctx idx t1 h,
    by rw [findMatches_exact content ctx idx t1 h,
      findMatches_exact content ctx idx t2 h],
    h1, h2⟩

/-- C3 counterexample: `"p\nq"` occurs verbatim twice in `"p\nq\np\nq"`
(at offsets 0 and 4), yet the matcher returns a single candidate — not
one candidate for every occurrence as the claim asserts for ReplaceAll. -/
theorem verbatim_two_occurrences_one_candidate :
    "p\nq".toList.isPrefixOf ("p\nq\np\nq".toList.drop 0) = true ∧
    "p\nq".toList.isPrefixOf ("p\nq\np\nq".toList.drop 4) = true ∧
    (findMatches "p\nq\np\nq".toList "p\nq".toList ((9 : ℚ)/10)).length = 1 := by
  exact ⟨by decide, by decide, by decide⟩

/-- C3 witness: `verbatim_occurrence_single_candidate` at the document
`"p\nq\np\nq"` with two different thresholds. -/
theorem verbatim_occurrence_single_candidate_witness :
    findMatches "p\nq\np\nq".toList "p\nq".toList ((1 : ℚ)/2) =
      [{ startIndex := 0, endIndex := 3, startLine := 1, score := 1 }] ∧
    findMatches "p\nq\np\nq".toList "p\nq".toList ((1 : ℚ)/2) =
      findMatches "p\nq\np\nq".toList "p\nq".toList ((17 : ℚ)/20) :=
  ⟨(verbatim_occurrence_single_candidate "p\nq\np\nq".toList "p\nq".toList 0
      ((1 : ℚ)/2) ((17 : ℚ)/20) (by decide)).1,
   (verbatim_occurrence_single_candidate "p\nq\np\nq".toList "p\nq".toList 0
      ((1 : ℚ)/2) ((17 : ℚ)/20) (by decide)).2.1⟩

/-! ## Claim C4 -/

/-- C4 (amended): under `replace_all` the handler does not splice every
target: it splices the replacement in place of `candidates[0]` only. The
result is determined by the head candidate alone — the remaining
candidates (`rest`) do not influence it. -/
theorem replace_all_splices_only_first
    (fmtF : List Char → Option (List Char)) (parseOK : List Char → Bool)
    (c ctx newC f : List Char) (m : Match) (rest : List Match) (th : ℚ)
    (hctx : ctx ≠ [])
    (hfind : findMatches c ctx (if th = 0 then (9 : ℚ)/10 else th) = m :: rest)
    (hfmt : fmtF (c.take m.startIndex ++ newC ++ c.drop m.endIndex) = some f)
    (hparse : parseOK f = true) :
    editCodeGodoc fmtF parseOK (some c) ⟨ctx, newC, "replace_all", th⟩ =
      (.success "replace_all", some f) := by
  rw [List.append_assoc] at hfmt
  simp [editCodeGodoc, hctx, hfind]
  rw [hfmt]
  simp [hparse]

/-- C4 counterexample: on `"xabx\nqq\nxabx"` with search context `" ab "`
and threshold ½ the matcher yields two non-overlapping targets (spans
`[0,5)` and `[8,12)`), yet `replace_all` rewrites only the first span: the
result differs from the naive order-independent replace-all reference,
which replaces both. -/
theorem replace_all_differs_from_naive_reference :
    findMatches "xabx\nqq\nxabx".toList " ab ".toList ((1 : ℚ)/2) =
      [{ startIndex := 0, endIndex := 5, startLine := 1, score := 1 },
       { startIndex := 8, endIndex := 12, startLine := 3, score := 1 }] ∧
    editCodeGodoc fmtId parseYes (some "xabx\nqq\nxabx".toList)
      ⟨" ab ".toList, "Y".toList, "replace_all", (1 : ℚ)/2⟩ =
      (.success "replace_all", some "Yqq\nxabx".toList) ∧
    naiveReplaceSpans "xabx\nqq\nxabx".toList [(0, 5), (8, 12)] "Y".toList =
      "Yqq\nY".toList ∧
    "Yqq\nxabx".toList ≠ "Yqq\nY".toList := by
  exact ⟨by decide, by decide, by decide, by decide⟩

/-- C4 witness: `replace_all_splices_only_first` on the two-target
document, with the second target explicitly present and ignored. -/
theorem replace_all_splices_only_first_witness :
    editCodeGodoc fmtId parseYes (some "xabx\nqq\nxabx".toList)
      ⟨" ab ".toList, "R".toList, "replace_all", (1 : ℚ)/2⟩ =
      (.success "replace_all", some "Rqq\nxabx".toList) :=
  replace_all_splices_only_first fmtId parseYes "xabx\nqq\nxabx".toList
    " ab ".toList "R".toList "Rqq\nxabx".toList
    { startIndex := 0, endIndex := 5, startLine := 1, score := 1 }
    [{ startIndex := 8, endIndex := 12, startLine := 3, score := 1 }]
    ((1 : ℚ)/2) (by decide) (by decide) (by decide) (by decide)

/-! ## Claim C5 -/

/-- C5 (amended): when no candidate reaches the threshold, the call fails
with a no-match result whose payload is exactly the original content size,
the search-context size and the resolved threshold — it does not carry any
best-scoring sub-threshold candidate or a diff against the pattern (that
feedback is an unimplemented `TODO` in the source: `bestMatchMsg` stays
empty). -/
theorem no_match_reports_sizes_only
    (fmtF : List Char → Option (List Char)) (parseOK : List Char → Bool)
    (c : List Char) (args : EditArgs)
    (hs1 : args.strategy ≠ "") (hs2 : args.strategy ≠ "overwrite_file")
    (hctx : args.searchContext ≠ [])
    (hfind : findMatches c args.searchContext
        (if args.threshold = 0 then (9 : ℚ)/10 else args.threshold) = []) :
    editCodeGodoc fmtF parseOK (some c) args =
      (.noMatch c.length args.searchContext.length
        (if args.threshold = 0 then (9 : ℚ)/10 else args.threshold), some c) := by
  simp [editCodeGodoc, hs1, hs2, hctx, hfind]

/-- C5 counterexample: two documents of equal size with very different
closest sub-threshold windows (spec-similarity 4∕5 versus 0 against the
pattern) produce byte-for-byte identical no-match failures: the failure
depends only on the sizes and the threshold, so it cannot carry the
best-scoring candidate rendered as a diff. -/
theorem no_match_payload_ignores_best_candidate :
    (editCodeGodoc fmtId parseYes (some "abcdZ".toList)
        ⟨"abcde".toList, "N".toList, "single_match", 0⟩).1 =
      (editCodeGodoc fmtId parseYes (some "zzzzz".toList)
        ⟨"abcde".toList, "N".toList, "single_match", 0⟩).1 ∧
    (editCodeGodoc fmtId parseYes (some "abcdZ".toList)
        ⟨"abcde".toList, "N".toList, "single_match", 0⟩).1 =
      .noMatch 5 5 ((9 : ℚ)/10) ∧
    specWindowScore (splitNL "abcdZ".toList) (splitNL "abcde".toList) 0 = (4 : ℚ)/5 ∧
    specWindowScore (splitNL "zzzzz".toList) (splitNL "abcde".toList) 0 = 0 := by
  exact ⟨by decide, by decide, by decide, by decide⟩

/-- C5 witness: `no_match_reports_sizes_only` at a concrete request. -/
theorem no_match_reports_sizes_only_witness :
    editCodeGodoc fmtId parseYes (some "abcdZ".toList)
      ⟨"abcde".toList, "N".toList, "single_match", 0⟩ =
      (.noMatch 5 5 (if (0 : ℚ) = 0 then (9 : ℚ)/10 else 0), some "abcdZ".toList) :=
  no_match_reports_sizes_only fmtId parseYes "abcdZ".toList
    ⟨"abcde".toList, "N".toList, "single_match", 0⟩
    (by decide) (by decide) (by decide) (by decide)

/-! ## Claim C6 -/

/-- C6 (amended): an omitted threshold (decoded as 0) makes the handler
behave exactly as if the threshold 9∕10 had been supplied: the engine's
default threshold is 0.9, not 0.85. -/
theorem omitted_threshold_defaults_to_nine_tenths
    (fmtF : List Char → Option (List Char)) (parseOK : List Char → Bool)
    (fs : Option (List Char)) (ctx newC : List Char) (strat : String) :
    editCodeGodoc fmtF parseOK fs ⟨ctx, newC, strat, 0⟩ =
      editCodeGodoc fmtF parseOK fs ⟨ctx, newC, strat, (9 : ℚ)/10⟩ := by
  have h : ¬ ((9 : ℚ)/10 = 0) := by norm_num
  simp [editCodeGodoc, h]

/-- C6 counterexample: a request whose best window scores 7∕8 = 0.875.
With the threshold omitted the call fails reporting threshold 9∕10, while
the same request with an explicit threshold 0.85 succeeds — so the default
is 0.9, not 0.85 as claimed. -/
theorem default_threshold_is_not_085 :
    (editCodeGodoc fmtId parseYes (some "a\nb\nc\nd\ne\nf\ng\nX".toList)
        ⟨"a\nb\nc\nd\ne\nf\ng\nh".toList, "N".toList, "single_match", 0⟩).1 =
      .noMatch 15 15 ((9 : ℚ)/10) ∧
    editCodeGodoc fmtId parseYes (some "a\nb\nc\nd\ne\nf\ng\nX".toList)
      ⟨"a\nb\nc\nd\ne\nf\ng\nh".toList, "N".toList, "single_match", (17 : ℚ)/20⟩ =
      (.success "single_match", some "N".toList) ∧
    (9 : ℚ)/10 ≠ (17 : ℚ)/20 := by
  exact ⟨by decide, by decide, by decide⟩

/-! ## Claim C7 -/

/-- C7 (amended): in the fuzzy fallback (no verbatim occurrence), the
candidates are exactly the line windows of the pattern's line count whose
score reaches the threshold, where the window score is the *fraction of
window lines* whose trimmed text equals — or contains as a substring — the
corresponding trimmed pattern line (not the averaged normalized
Levenshtein similarity of the spec). -/
theorem fuzzy_window_membership (content ctx : List Char) (th : ℚ) (m : Match)
    (h : firstIdx content ctx = none) :
    m ∈ findMatches content ctx th ↔
      ∃ i, i + (splitNL ctx).length ≤ (splitNL content).length ∧
        th ≤ windowScore content ctx i ∧ m = windowCandidate content ctx i := by
  rw [findMatches, h]
  dsimp only
  by_cases hle : (splitNL ctx).length ≤ (splitNL content).length
  · rw [if_pos hle]
    simp only [List.mem_filterMap, List.mem_range]
    constructor
    · rintro ⟨i, hi, hsome⟩
      rw [Option.ite_none_right_eq_some, Option.some.injEq] at hsome
      exact ⟨i, by omega, hsome.1, hsome.2.symm⟩
    · rintro ⟨i, hi, hth, rfl⟩
      refine ⟨i, by omega, ?_⟩
      rw [Option.ite_none_right_eq_some]
      exact ⟨hth, rfl⟩
  · rw [if_neg hle]
    simp only [List.not_mem_nil, false_iff]
    rintro ⟨i, hi, -, -⟩
    omega

/-- C7 counterexample: content `"abcx"`, pattern `"abcd"`, threshold 0.7.
The spec's per-line formula gives similarity
`1 - levenshtein("abcx","abcd")/4 = 3/4 ≥ 0.7`, so the window would be
kept; the code's equality-or-containment scoring gives the window score 0
and the matcher returns no candidate at all. -/
theorem fuzzy_scoring_is_not_levenshtein :
    findMatches "abcx".toList "abcd".toList ((7 : ℚ)/10) = [] ∧
    specLineSimilarity "abcx".toList "abcd".toList = (3 : ℚ)/4 ∧
    (7 : ℚ)/10 ≤ specWindowScore (splitNL "abcx".toList) (splitNL "abcd".toList) 0 ∧
    windowScore "abcx".toList "abcd".toList 0 = 0 := by
  exact ⟨by decide, by decide, by decide, by decide⟩

/-- C7 witness: `fuzzy_window_membership` instantiated on `"zabz"` with
pattern `" ab "`: the single window is a candidate (containment match,
score 1). -/
theorem fuzzy_window_membership_witness :
    ({ startIndex := 0, endIndex := 4, startLine := 1, score := 1 } : Match) ∈
      findMatches "zabz".toList " ab ".toList ((1 : ℚ)/2) :=
  (fuzzy_window_membership "zabz".toList " ab ".toList ((1 : ℚ)/2)
      { startIndex := 0, endIndex := 4, startLine := 1, score := 1 }
      (by decide)).mpr ⟨0, by decide, by decide, by decide⟩

/-! ## Claim C8 -/

/-- C8 (amended): the matcher returns its candidates in window order —
start lines (hence start offsets) strictly ascending — and not sorted by
descending score. -/
theorem candidates_in_ascending_position (content ctx : List Char) (th : ℚ) :
    (findMatches content ctx th).Pairwise (fun a b => a.startLine < b.startLine) := by
  rw [findMatches]
  cases hfi : firstIdx content ctx with
  | some idx => simp
  | none =>
    dsimp only
    split
    · refine (List.pairwise_lt_range _).filterMap _ ?_
      intro a b hab x hx y hy
      rw [Option.mem_def, Option.ite_none_right_eq_some, Option.some.injEq] at hx hy
      obtain ⟨-, rfl⟩ := hx
      obtain ⟨-, rfl⟩ := hy
      exact Nat.succ_lt_succ hab
    · exact List.Pairwise.nil

/-- C8 counterexample: on `"ab\nxx\nzabz\nzcdz"` with pattern `"ab\ncd"`
and threshold ½ the matcher returns scores `[1/2, 1]` in that order: the
second candidate scores strictly higher than the first, so the list is
not sorted by descending score. -/
theorem candidates_not_sorted_by_score :
    (findMatches "ab\nxx\nzabz\nzcdz".toList "ab\ncd".toList ((1 : ℚ)/2)).map
        Match.score = [(1 : ℚ)/2, 1] ∧
    ¬ ((1 : ℚ) ≤ (1 : ℚ)/2) := by
  exact ⟨by decide, by decide⟩

/-! ## Claim C9 -/

/-- C9 (amended): provided the overwrite content `C` passes validation —
the formatter yields `f` and `f` parses — applying `overwrite_file` twice
returns Success both times and leaves the file content `f` (the formatted
content) both times; the file content equals `C` itself only when the
formatter maps `C` to `C`. The result does not depend on the file's prior
state (including a missing file). -/
theorem overwrite_twice_yields_formatted
    (fmtF : List Char → Option (List Char)) (parseOK : List Char → Bool)
    (fs : Option (List Char)) (ctx c f : List Char) (th : ℚ)
    (hfmt : fmtF c = some f) (hparse : parseOK f = true) :
    editCodeGodoc fmtF parseOK fs ⟨ctx, c, "overwrite_file", th⟩ =
      (.success "overwrite_file", some f) ∧
    editCodeGodoc fmtF parseOK
        (editCodeGodoc fmtF parseOK fs ⟨ctx, c, "overwrite_file", th⟩).2
        ⟨ctx, c, "overwrite_file", th⟩ =
      (.success "overwrite_file", some f) := by
  have h1 : ∀ fs' : Option (List Char),
      editCodeGodoc fmtF parseOK fs' ⟨ctx, c, "overwrite_file", th⟩ =
        (.success "overwrite_file", some f) := by
    intro fs'
    cases fs' <;> simp [editCodeGodoc, hfmt, hparse]
  exact ⟨h1 fs, by rw [h1 fs]; exact h1 (some f)⟩

/-- C9 counterexample: with a formatter that canonicalizes the missing
final newline (as goimports does), overwriting with
`C = "package main"` succeeds but leaves the file with
`format(C) = "package main\n" ≠ C` — the call does not yield file content
`C`. And when the candidate content fails the parse check, the result is
a failure, not Success. Both contradict the claim as stated for every
`C`. -/
theorem overwrite_not_content_preserving :
    editCodeGodoc fmtNewline parseYes (some "old".toList)
      ⟨[], "package main".toList, "overwrite_file", 0⟩ =
      (.success "overwrite_file", some "package main\n".toList) ∧
    "package main\n".toList ≠ "package main".toList ∧
    (editCodeGodoc fmtNewline parseNo (some "old".toList)
        ⟨[], "package main".toList, "overwrite_file", 0⟩).1 = .syntaxErrorPost := by
  exact ⟨by decide, by decide, by decide⟩

/-- C9 witness: `overwrite_twice_yields_formatted` on a concrete file. -/
theorem overwrite_twice_yields_formatted_witness :
    editCodeGodoc fmtNewline parseYes (some "old".toList)
      ⟨[], "pkg\n".toList, "overwrite_file", 0⟩ =
      (.success "overwrite_file", some "pkg\n".toList) ∧
    editCodeGodoc fmtNewline parseYes
        (editCodeGodoc fmtNewline parseYes (some "old".toList)
          ⟨[], "pkg\n".toList, "overwrite_file", 0⟩).2
        ⟨[], "pkg\n".toList, "overwrite_file", 0⟩ =
      (.success "overwrite_file", some "pkg\n".toList) :=
  overwrite_twice_yields_formatted fmtNewline parseYes (some "old".toList)
    [] "pkg\n".toList "pkg\n".toList 0 (by decide) (by decide)

/-! ## Claim C10 -/

/-- C10 (amended): in the single-replacement `edit_code.go` variant an
absent `old_string` is not reported as an error: for a non-`.go` file the
handler reports success and rewrites the identical bytes; for a `.go`
file it reports success provided the (unchanged) content passes
`gopls check` and is a fixpoint of the formatter. The multi-edit variant
instead returns the `old_string not found` error and performs no write. -/
theorem absent_old_string_single_vs_multi :
    (∀ (check : List Char → String) (fmtF : List Char → Option (List Char))
        (c oldS newS : List Char), containsSub c oldS = false →
        editCodeSingle check fmtF false (some c) oldS newS = (.editedOK, some c)) ∧
    (∀ (check : List Char → String) (fmtF : List Char → Option (List Char))
        (c oldS newS : List Char), containsSub c oldS = false →
        check c = "" → fmtF c = some c →
        editCodeSingle check fmtF true (some c) oldS newS = (.editedOK, some c)) ∧
    (∀ (check : List Char → String) (fmtF : List Char → Option (List Char))
        (isGo : Bool) (c oldS newS : List Char), containsSub c oldS = false →
        editCodeMulti check fmtF isGo (some c) [(oldS, newS)] =
          (.notFound, some c)) := by
  refine ⟨?_, ?_, ?_⟩
  · intro check fmtF c oldS newS h
    simp [editCodeSingle, replaceFirst_of_not_found c oldS newS h]
  · intro check fmtF c oldS newS h hchk hfmt
    simp [editCodeSingle, replaceFirst_of_not_found c oldS newS h, hchk, hfmt]
  · intro check fmtF isGo c oldS newS h
    simp [editCodeMulti, replaceFirst_of_not_found c oldS newS h]

/-- C10 counterexample: a `.go` file whose unchanged content draws
`gopls check` diagnostics. The `old_string` `"q"` does not occur in the
content `"x"`, yet the single-replacement handler reports the check
failure (after reverting), not `"File edited successfully."` — refuting
"still reports success" for *every* file without the `old_string`. -/
theorem absent_old_string_can_still_fail :
    containsSub "x".toList "q".toList = false ∧
    editCodeSingle checkBad fmtId true (some "x".toList) "q".toList "y".toList =
      (.checkFailed "main.go:1:1: oops", some "x".toList) ∧
    SingleOutcome.checkFailed "main.go:1:1: oops" ≠ .editedOK := by
  exact ⟨by decide, by decide, by decide⟩

/-- C10 witness: the three parts of `absent_old_string_single_vs_multi`
at concrete inputs. -/
theorem absent_old_string_single_vs_multi_witness :
    editCodeSingle checkOK fmtId false (some "data".toList) "zz".toList "w".toList =
      (.editedOK, some "data".toList) ∧
    editCodeSingle checkOK fmtId true (some "x".toList) "q".toList "y".toList =
      (.editedOK, some "x".toList) ∧
    editCodeMulti checkOK fmtId true (some "x".toList)
      [("q".toList, "y".toList)] = (.notFound, some "x".toList) :=
  ⟨absent_old_string_single_vs_multi.1 checkOK fmtId "data".toList "zz".toList
      "w".toList (by decide),
   absent_old_string_single_vs_multi.2.1 checkOK fmtId "x".toList "q".toList
      "y".toList (by decide) (by decide) (by decide),
   absent_old_string_single_vs_multi.2.2 checkOK fmtId true "x".toList
      "q".toList "y".toList (by decide)⟩

end Godoctor

end
